import Mathlib

/-!
Verification of the ai-search multi-source retrieval and answer pipeline.
The definitions below are a shallow embedding of the JavaScript source:
pure functions are transcribed directly, JS `undefined`/absent values are
modelled with `Option`, JS string truthiness (`"" ` is falsy) is made
explicit, and the calls to external providers (academic search APIs and
the text-generation API) are turned into explicit parameters so that the
pipeline functions become pure functions of their inputs and of the
responses the providers may return.
-/

namespace AISearch

/-- Normalized paper record in the shape produced by the source adapters
(`title/abstract/year/citationCount/referenceCount/authors/link/source`). -/
structure Paper where
  title : String
  abstract : String
  year : String
  citationCount : Int
  referenceCount : Int
  authors : String
  link : String
  source : String
  deriving Repr, DecidableEq, Inhabited

/-! ### JavaScript string helpers -/

/-- Does the character list start with the given pattern? -/
def beginsWith : List Char → List Char → Bool
  | [], _ => true
  | _ :: _, [] => false
  | a :: as, b :: bs => a == b && beginsWith as bs

/-- Does the pattern occur contiguously somewhere in the list?
(`occursIn pat s` models JavaScript `s.includes(pat)` on char data.) -/
def occursIn (pat : List Char) : List Char → Bool
  | [] => pat.isEmpty
  | l@(_ :: rest) => beginsWith pat l || occursIn pat rest

/-- JS `s.includes(sub)`. -/
def jsIncludes (s sub : String) : Bool := occursIn sub.data s.data

/-- JS regex `\w`: ASCII letters, digits, underscore. -/
def isWordChar (c : Char) : Bool := c.isAlphanum || c == '_'

/-- Characters kept by `replace(/[^\w\s]/g, '')`: word chars and whitespace. -/
def keepChar (c : Char) : Bool := isWordChar c || c.isWhitespace

/-- JS `replace(/\s+/g, ' ')`: collapse whitespace runs to a single space.
The boolean records whether the previous kept character was a space. -/
def collapseWS : Bool → List Char → List Char
  | _, [] => []
  | prevSpace, c :: rest =>
    if c.isWhitespace then
      if prevSpace then collapseWS true rest else ' ' :: collapseWS true rest
    else c :: collapseWS false rest

/-- JS `trim()` on char data. -/
def trimSpaces (l : List Char) : List Char :=
  ((l.dropWhile Char.isWhitespace).reverse.dropWhile Char.isWhitespace).reverse

/-- JS `toLowerCase()` (character-wise). -/
def jsToLower (s : String) : String := String.mk (s.data.map Char.toLower)

/-- JS `trim()`. -/
def jsTrim (s : String) : String := String.mk (trimSpaces s.data)

/-- JS `s.split(sep)` for a single-character separator, on char data:
splitting the empty string yields one empty piece, and the result always
has one piece more than the number of separator occurrences. -/
def splitOnChar (sep : Char) : List Char → List (List Char)
  | [] => [[]]
  | c :: rest =>
    let r := splitOnChar sep rest
    if c == sep then [] :: r else (c :: r.headD []) :: r.tail

/-- JS `s.split(sep)` for a single-character separator. -/
def jsSplit (s : String) (sep : Char) : List String :=
  (splitOnChar sep s.data).map String.mk

/-- The `normalizeTitle` helper of `removeDuplicatePapers`: lower-case, strip
punctuation, collapse whitespace, trim. -/
def normalizeTitle (t : String) : String :=
  String.mk (trimSpaces (collapseWS false ((t.data.map Char.toLower).filter keepChar)))

/-! ### removeDuplicatePapers -/

/-- The duplicate test from the dedup loop: a non-empty normalized title is
a duplicate of any previously processed title that contains it or that it
contains. -/
def isDupTitle (seen : List String) (t : String) : Bool :=
  seen.any (fun e => !(t == "") && (jsIncludes t e || jsIncludes e t))

/-- JS `Set.add` on processed titles (insertion order, no duplicates). -/
def addTitle (seen : List String) (t : String) : List String :=
  if t ∈ seen then seen else seen ++ [t]

/-- The dedup loop with the set of already-processed normalized titles made
explicit. -/
def dedupAux (seen : List String) : List Paper → List Paper
  | [] => []
  | p :: rest =>
    let t := normalizeTitle p.title
    if isDupTitle seen t then dedupAux seen rest
    else p :: dedupAux (addTitle seen t) rest

/-- The `removeDuplicatePapers` function of the aggregator. -/
def removeDuplicatePapers (papers : List Paper) : List Paper := dedupAux [] papers

/-- The set of processed titles after the dedup loop has run over a list. -/
def seenAfter (seen : List String) : List Paper → List String
  | [] => seen
  | p :: rest =>
    let t := normalizeTitle p.title
    if isDupTitle seen t then seenAfter seen rest
    else seenAfter (addTitle seen t) rest

/-! ### balanceResultSources -/

/-- JS `paper.source || 'Unknown'` — key used to group papers by source. -/
def sourceKey (p : Paper) : String := if p.source = "" then "Unknown" else p.source

/-- Add a paper to the group with the given key, appending a new group at
the end when the key is new (JS object property insertion order). -/
def addToGroups (k : String) (p : Paper) : List (String × List Paper) → List (String × List Paper)
  | [] => [(k, [p])]
  | g :: rest => if g.1 = k then (g.1, g.2 ++ [p]) :: rest else g :: addToGroups k p rest

/-- The `bySource` object built by `balanceResultSources`. -/
def groupBySource (papers : List Paper) : List (String × List Paper) :=
  papers.foldl (fun gs p => addToGroups (sourceKey p) p gs) []

/-- JS `Math.ceil(a / b)` for natural numbers. -/
def ceilDiv (a b : Nat) : Nat := (a + b - 1) / b

/-- First balancing round: take up to `ceil(targetTotal / numSources)`
papers from each source group. -/
def firstPassBalanced (papers : List Paper) (targetTotal : Nat) : List Paper :=
  let gs := groupBySource papers
  (gs.map (fun g => g.2.take (ceilDiv targetTotal gs.length))).flatten

/-- Stable insertion into a list sorted by citation count descending
(an element goes after all elements with a count at least as large). -/
def insertCitDesc (p : Paper) : List Paper → List Paper
  | [] => [p]
  | q :: rest =>
    if q.citationCount < p.citationCount then p :: q :: rest else q :: insertCitDesc p rest

/-- The stable sort `remaining.sort((a, b) => (b.citationCount||0) - (a.citationCount||0))`. -/
def sortCitDesc (papers : List Paper) : List Paper := papers.foldr insertCitDesc []

/-- The `balanceResultSources(papers, targetTotal)` function of the aggregator. -/
def balanceResultSources (papers : List Paper) (targetTotal : Nat) : List Paper :=
  if papers.isEmpty then []
  else
    let gs := groupBySource papers
    if gs.length ≤ 1 then papers
    else
      let per := ceilDiv targetTotal gs.length
      let balanced := firstPassBalanced papers targetTotal
      if balanced.length < targetTotal then
        let remaining := (gs.map (fun g => g.2.drop per)).flatten
        balanced ++ (sortCitDesc remaining).take (targetTotal - balanced.length)
      else
        balanced

/-! ### filterRelevantPapers -/

/-- The possible shapes of the text-generation provider's reply to the
relevance-filter prompt: a transport or JSON-parse failure, parseable JSON
that is not an array, or an array of selected indices. -/
inductive FilterUpstream where
  | failure
  | notArray
  | idArray (ids : List Int)
  deriving Repr, DecidableEq

/-- JS `papers[id]` for an integer index: `undefined` when out of range. -/
def indexPaper (papers : List Paper) (id : Int) : Option Paper :=
  if id < 0 then none else papers.get? id.toNat

/-- The `filterRelevantPapers(question, papers, maxPapers)` function, with the provider's
reply made an explicit argument. Returns the selected list together with a
flag recording whether the text-generation provider was called. -/
def filterRelevantPapers (question : String) (papers : List Paper) (maxPapers : Nat)
    (upstream : FilterUpstream) : List Paper × Bool :=
  if papers.length ≤ maxPapers then (papers, false)
  else
    match upstream with
    | .failure => (papers, true)
    | .notArray => (papers, true)
    | .idArray ids =>
      let selected := ids.filterMap (indexPaper papers)
      if selected.isEmpty then (papers, true) else (selected, true)

/-! ### Citation keys -/

/-- The heterogeneous shapes an `authors` field can take in JS. -/
inductive AuthorV where
  | str (s : String)
  | obj (name : Option String)
  | nullish
  deriving Repr, DecidableEq

/-- A citation's `authors` value: a display string, an array, or anything
else (absent, null, a number, ...). -/
inductive AuthorsVal where
  | str (s : String)
  | arr (l : List AuthorV)
  | other
  deriving Repr, DecidableEq

/-- The fields of a citation record that citation-key construction reads. -/
structure CitRecord where
  authors : AuthorsVal
  year : Option String
  deriving Repr, DecidableEq

/-- JS truthiness of an optional string (`undefined`, `null` and `""` are falsy). -/
def jsTruthyOpt : Option String → Bool
  | none => false
  | some s => !(s == "")

/-- JS `parts[parts.length - 1]` after `s.split(' ')` (the split of any
string is non-empty, so the default is never used). -/
def lastSpaceToken (s : String) : String := (jsSplit s ' ').getLastD ""

/-- Citation-key construction from `generateAnswerWithCitations`:
`citationKey = `[${authorLastName}${year}]`` with `year = citation.year || 'n.d.'`. -/
def citationKeyGen (c : CitRecord) : String :=
  let authorLastName :=
    match c.authors with
    | .str s => lastSpaceToken (jsTrim ((jsSplit s ',').headD ""))
    | .arr [] => "Unknown"
    | .arr (a :: _) =>
      match a with
      | .str s => lastSpaceToken (jsTrim s)
      | .obj name => if jsTruthyOpt name then lastSpaceToken (jsTrim (name.getD "")) else "Unknown"
      | .nullish => "Unknown"
    | .other => "Unknown"
  let year := if jsTruthyOpt c.year then c.year.getD "" else "n.d."
  "[" ++ authorLastName ++ year ++ "]"

/-- Citation-key construction from the streaming route's `citationsWithKeys`:
`citationKey = `${authorLastName}${citation.year || ''}`` (no brackets, no
trim on the string branch, empty-string year fallback). -/
def citationKeyStream (c : CitRecord) : String :=
  let authorLastName :=
    match c.authors with
    | .str s =>
      let firstAuthor := (jsSplit s ',').headD ""
      if firstAuthor == "" then "Unknown" else lastSpaceToken firstAuthor
    | .arr [] => "Unknown"
    | .arr (a :: _) =>
      match a with
      | .str s => lastSpaceToken s
      | .obj name => if jsTruthyOpt name then lastSpaceToken (name.getD "") else "Unknown"
      | .nullish => "Unknown"
    | .other => "Unknown"
  let year := if jsTruthyOpt c.year then c.year.getD "" else ""
  authorLastName ++ year

/-- The map `citations.map((citation, index) => (...))` adding `citationKey`, from
`generateAnswerWithCitations`. -/
def buildKeysGen (citations : List CitRecord) : List (CitRecord × String) :=
  citations.map (fun c => (c, citationKeyGen c))

/-- The surname extraction of the amended claim, written from its words:
the last whitespace-delimited token of the trimmed first comma-separated
segment of the authors string; the first array author's name when authors
is a non-empty array; `"Unknown"` otherwise. -/
def surnameSpecGen : AuthorsVal → String
  | .str s => lastSpaceToken (jsTrim ((jsSplit s ',').headD ""))
  | .arr [] => "Unknown"
  | .arr (.str s :: _) => lastSpaceToken (jsTrim s)
  | .arr (.obj name :: _) =>
    if jsTruthyOpt name then lastSpaceToken (jsTrim (name.getD "")) else "Unknown"
  | .arr (.nullish :: _) => "Unknown"
  | .other => "Unknown"

/-- The year rendering of the amended claim: the year string when truthy,
the sentinel `"n.d."` otherwise. -/
def yearSpecGen (y : Option String) : String :=
  if jsTruthyOpt y then y.getD "" else "n.d."

/-! ### streamOpenAIResponse -/

/-- One parsed server-sent message from the streaming completion API:
the `[DONE]` marker, a non-JSON line, or a delta whose `content` field may
be absent. -/
inductive SMsg where
  | doneMark
  | malformed
  | delta (content : Option String)
  deriving Repr, DecidableEq

/-- Events the pipeline writes to the caller while streaming one stage. -/
inductive SEvent where
  | token (stage : String) (tok : String)
  | chunkComplete (stage : String) (content : String)
  deriving Repr, DecidableEq

/-- The data-event loop of `streamOpenAIResponse`: truthy delta contents are
appended to `completeResponse` and forwarded as `token` events; everything
else is skipped. -/
def streamLoop (stage : String) (acc : String) : List SMsg → List SEvent × String
  | [] => ([], acc)
  | m :: rest =>
    match m with
    | .delta (some c) =>
      if c == "" then streamLoop stage acc rest
      else
        let r := streamLoop stage (acc ++ c) rest
        (SEvent.token stage c :: r.1, r.2)
    | _ => streamLoop stage acc rest

/-- The `streamOpenAIResponse` function: processes the message sequence, then emits one
`chunk_complete` event carrying the accumulated text and resolves with it. -/
def streamOpenAIResponse (stage : String) (msgs : List SMsg) : List SEvent × String :=
  let r := streamLoop stage "" msgs
  (r.1 ++ [SEvent.chunkComplete stage r.2], r.2)

/-- The text increments carried by the message sequence (the `content`
fields of the deltas, in order). -/
def increments (msgs : List SMsg) : List String :=
  msgs.filterMap (fun m => match m with | .delta (some c) => some c | _ => none)

/-- Concatenation of a list of strings, in order. -/
def concatAll : List String → String
  | [] => ""
  | s :: rest => s ++ concatAll rest

/-! ### processQuestion -/

/-- The parsed evaluator decision `{canAnswer, answer?, queryWord?}`. -/
structure Decision where
  canAnswer : Bool
  answer : String
  queryWord : String
  deriving Repr, DecidableEq

/-- The value produced by `generateAnswerWithCitations`. -/
structure GenOut where
  answer : String
  analysis : String
  deriving Repr, DecidableEq

/-- The citation objects `processQuestion` builds from retrieved papers. -/
structure Citation where
  title : String
  abstract : String
  year : String
  citationCount : Int
  referenceCount : Int
  authors : String
  link : String
  id : String
  deriving Repr, DecidableEq

/-- The citation mapping in `processQuestion` (adapter records carry no
`paperId`/`id`, so the id falls back to the generated random token). -/
def mkCitation (randomId : String) (p : Paper) : Citation :=
  { title := if p.title == "" then "N/A" else p.title
  , abstract := if p.abstract == "" then "No abstract available" else p.abstract
  , year := if p.year == "" then "N/A" else p.year
  , citationCount := p.citationCount
  , referenceCount := p.referenceCount
  , authors := p.authors
  , link := p.link
  , id := randomId }

/-- The terminal result object of `processQuestion`. -/
structure QResult where
  answer : String
  queryWord : Option String
  citations : List Citation
  note : Option String
  paperAnalysis : Option String
  processSteps : List String
  deriving Repr, DecidableEq

/-- The "no papers found" answer template of `processQuestion`. -/
def noPapersAnswer (question queryWord : String) : String :=
  "我无法找到与\"" ++ question ++ "\"相关的学术文章，使用搜索词\"" ++ queryWord ++ "\"。"

/-- The `processQuestion(question)` pipeline with its effects made explicit: the parsed
evaluator decision (or its JSON failure), the aggregated search result, the
outcome of `generateAnswerWithCitations`, and the random tokens used for
citation ids. The boolean records whether the analysis / cited-answer stage
(`generateAnswerWithCitations`) was entered. -/
def processQuestion (question : String) (decision : Except String Decision)
    (papers : List Paper) (genResult : Except String GenOut)
    (randomIds : Nat → String) : Except String QResult × Bool :=
  match decision with
  | .error e => (.error e, false)
  | .ok d =>
    if d.canAnswer then
      (.ok { answer := d.answer
           , queryWord := none
           , citations := []
           , note := some "Answer provided solely based on internal knowledge; no citations required."
           , paperAnalysis := none
           , processSteps := ["Evaluated question scope",
               "Determined internal knowledge sufficient", "Generated answer"] }, false)
    else
      if papers.isEmpty then
        (.ok { answer := noPapersAnswer question d.queryWord
             , queryWord := some d.queryWord
             , citations := []
             , note := none
             , paperAnalysis := none
             , processSteps := ["Evaluated question scope", "Determined research needed",
                 "Retrieved 0 papers", "Generated response"] }, false)
      else
        let citations := papers.enum.map (fun ip => mkCitation (randomIds ip.1) ip.2)
        match genResult with
        | .error e => (.error e, true)
        | .ok g =>
          (.ok { answer := g.answer
               , queryWord := some d.queryWord
               , citations := citations
               , note := none
               , paperAnalysis := some g.analysis
               , processSteps := ["Evaluated question scope", "Determined research needed",
                   "Retrieved " ++ toString citations.length ++ " papers",
                   "Analyzed paper content",
                   "Generated comprehensive answer with citations"] }, true)

/-- Events written by the `/stream-question` route. -/
inductive RouteEvent where
  | stageUpdate (stage : String) (message : String)
  | substageUpdate (stage : String) (message : String)
  | completeEv (answer : String) (citations : List Citation)
  deriving Repr, DecidableEq

/-- The `/stream-question` route's control flow after the paper search
resolves: an empty result writes the `no_papers_found` stage update and the
terminal `complete` event (with an empty citations list) and ends the
stream; otherwise the route continues with the filtering/analysis events
(abstracted here as `rest`). -/
def streamAfterSearch (question : String) (d : Decision) (papers : List Paper)
    (rest : List RouteEvent) : List RouteEvent :=
  if papers.isEmpty then
    [ RouteEvent.stageUpdate "no_papers_found"
        ("未找到与搜索词\"" ++ d.queryWord ++ "\"相关的论文。")
    , RouteEvent.completeEv (noPapersAnswer question d.queryWord) [] ]
  else
    RouteEvent.substageUpdate "papers_found"
      ("找到" ++ toString papers.length ++ "篇论文进行评估。") :: rest

/-! ### Source adapters (searchSemanticScholar / searchCORE) -/

/-- A raw `year` field: providers send either a number or a string. -/
inductive YearV where
  | num (n : Int)
  | str (s : String)
  deriving Repr, DecidableEq

/-- JS truthiness of an optional raw year. -/
def yearTruthy : Option YearV → Bool
  | none => false
  | some (.num n) => !(n == 0)
  | some (.str s) => !(s == "")

/-- JS `paper.year !== 'N/A'`. -/
def yearNotNA : YearV → Bool
  | .num _ => true
  | .str s => !(s == "N/A")

/-- JS `paper.year.toString()`. -/
def yearToString : YearV → String
  | .num n => toString n
  | .str s => s

/-- The adapters' year normalization:
`paper.year && paper.year !== 'N/A' ? paper.year.toString() : 'Unknown'`. -/
def normYear (y : Option YearV) : String :=
  match y with
  | some yv => if yearTruthy (some yv) && yearNotNA yv then yearToString yv else "Unknown"
  | none => "Unknown"

/-- JS `x || dflt` for an optional string field. -/
def jsOrStr (v : Option String) (dflt : String) : String :=
  match v with
  | some s => if s == "" then dflt else s
  | none => dflt

/-- A chain `a || b || ... || dflt` of optional string fields. -/
def jsChainStr (l : List (Option String)) (dflt : String) : String :=
  match l with
  | [] => dflt
  | v :: rest =>
    match v with
    | some s => if s == "" then jsChainStr rest dflt else s
    | none => jsChainStr rest dflt

/-- JS `x || 0` for an optional numeric field. -/
def jsOrIntZero (v : Option Int) : Int :=
  match v with
  | some n => n
  | none => 0

/-- The Semantic Scholar adapter's author rendering: only objects with a
truthy `name` contribute it, everything else becomes `'Unknown'`. -/
def ssAuthorName : AuthorV → String
  | .obj name => if jsTruthyOpt name then name.getD "" else "Unknown"
  | _ => "Unknown"

/-- The CORE adapter's author rendering: strings pass through, objects with
a truthy `name` contribute it, everything else becomes `'Unknown'`. -/
def coreAuthorName : AuthorV → String
  | .str s => s
  | .obj name => if jsTruthyOpt name then name.getD "" else "Unknown"
  | .nullish => "Unknown"

/-- The adapters' author normalization: a non-empty array is rendered with
`join(', ')`, anything else becomes `'Unknown'`. -/
def normAuthors (auths : Option (List AuthorV)) (render : AuthorV → String) : String :=
  match auths with
  | some [] => "Unknown"
  | some l => String.intercalate ", " (l.map render)
  | none => "Unknown"

/-- A raw Semantic Scholar result record (any subset of fields may be absent). -/
structure RawSSPaper where
  title : Option String
  abstract : Option String
  year : Option YearV
  citationCount : Option Int
  referenceCount : Option Int
  authors : Option (List AuthorV)
  url : Option String

/-- A raw CORE result record (any subset of fields may be absent). -/
structure RawCOREPaper where
  title : Option String
  abstract : Option String
  description : Option String
  year : Option YearV
  authors : Option (List AuthorV)
  downloadUrl : Option String
  url : Option String
  doi : Option String

/-- A normalized record as a JS object: each property holds an optional
value, `none` standing for `undefined`. -/
structure NormPaper where
  title : Option String
  abstract : Option String
  year : Option String
  citationCount : Option Int
  referenceCount : Option Int
  authors : Option String
  link : Option String
  source : Option String
  deriving Repr, DecidableEq

/-- The per-record normalization of `searchSemanticScholar`. -/
def normalizeSemanticScholar (p : RawSSPaper) : NormPaper :=
  { title := some (jsOrStr p.title "No title available")
  , abstract := some (jsOrStr p.abstract "No abstract available")
  , year := some (normYear p.year)
  , citationCount := some (jsOrIntZero p.citationCount)
  , referenceCount := some (jsOrIntZero p.referenceCount)
  , authors := some (normAuthors p.authors ssAuthorName)
  , link := some (jsOrStr p.url "No link available")
  , source := some "Semantic Scholar" }

/-- The per-record normalization of `searchCORE`. -/
def normalizeCORE (p : RawCOREPaper) : NormPaper :=
  { title := some (jsOrStr p.title "No title available")
  , abstract := some (jsChainStr [p.abstract, p.description] "No abstract available")
  , year := some (normYear p.year)
  , citationCount := some 0
  , referenceCount := some 0
  , authors := some (normAuthors p.authors coreAuthorName)
  , link := some (jsChainStr [p.downloadUrl, p.url, p.doi] "")
  , source := some "CORE" }

/-- Which properties of a normalized record are defined, in field order. -/
def definedVector (p : NormPaper) : List Bool :=
  [p.title.isSome, p.abstract.isSome, p.year.isSome, p.citationCount.isSome,
   p.referenceCount.isSome, p.authors.isSome, p.link.isSome, p.source.isSome]

/-- The surname extraction of the amended claim for the streaming route's
variant: no trim, and an empty first comma-segment falls back to `"Unknown"`. -/
def surnameSpecStream : AuthorsVal → String
  | .str s =>
    let firstAuthor := (jsSplit s ',').headD ""
    if firstAuthor == "" then "Unknown" else lastSpaceToken firstAuthor
  | .arr [] => "Unknown"
  | .arr (.str s :: _) => lastSpaceToken s
  | .arr (.obj name :: _) => if jsTruthyOpt name then lastSpaceToken (name.getD "") else "Unknown"
  | .arr (.nullish :: _) => "Unknown"
  | .other => "Unknown"

/-- Recognizes `token` events. -/
def isTokenEv : SEvent → Bool
  | .token _ _ => true
  | _ => false

/-! ### Concrete records used in the witnesses and counterexamples -/

/-- A minimal paper record with the given source and a numbered title. -/
def mkPaper (src : String) (i : Nat) : Paper :=
  { title := "paper " ++ toString i, abstract := "", year := "", citationCount := 0,
    referenceCount := 0, authors := "", link := "", source := src }

def dlPaper1 : Paper :=
  { title := "Deep Learning for X", abstract := "", year := "", citationCount := 0,
    referenceCount := 0, authors := "", link := "", source := "arXiv" }

def dlPaper2 : Paper :=
  { title := "deep learning for x!", abstract := "", year := "", citationCount := 0,
    referenceCount := 0, authors := "", link := "", source := "CORE" }

/-- A record whose title normalizes to the empty string. -/
def bangPaper : Paper :=
  { title := "!!!", abstract := "", year := "", citationCount := 0,
    referenceCount := 0, authors := "", link := "", source := "arXiv" }

/-- Another record whose title normalizes to the empty string. -/
def bangPaper2 : Paper :=
  { title := "???", abstract := "", year := "", citationCount := 0,
    referenceCount := 0, authors := "", link := "", source := "CORE" }

def paperA : Paper := mkPaper "Semantic Scholar" 0

def paperB : Paper := mkPaper "arXiv" 1

/-- One hundred deduplicated papers split 90/10 across two sources. -/
def scenario100 : List Paper :=
  (List.range 90).map (mkPaper "Semantic Scholar")
    ++ (List.range 10).map (fun i => mkPaper "CORE" (90 + i))

/-- A provider stream with an empty-string increment between two others. -/
def c8msgs : List SMsg := [SMsg.delta (some "a"), SMsg.delta (some ""), SMsg.delta (some "b")]

/-! ### Dedup lemmas -/

theorem dedupAux_idem (l : List Paper) : ∀ seen, dedupAux seen (dedupAux seen l) = dedupAux seen l := by
  induction l with
  | nil => intro seen; rfl
  | cons p rest ih =>
    intro seen
    by_cases h : isDupTitle seen (normalizeTitle p.title)
    · simp only [dedupAux, h, if_pos, ih]
    · simp only [dedupAux, h, if_neg, Bool.false_eq_true, not_false_iff, ih]

theorem occursIn_nil_pat (l : List Char) : occursIn [] l = true := by
  induction l with
  | nil => rfl
  | cons c rest ih => simp [occursIn, ih, beginsWith]

theorem jsIncludes_empty_sub (s : String) : jsIncludes s "" = true := by
  simp [jsIncludes, occursIn_nil_pat]

theorem isDupTitle_empty (seen : List String) : isDupTitle seen "" = false := by
  simp [isDupTitle]

theorem isDupTitle_of_empty_mem (seen : List String) (t : String)
    (hmem : "" ∈ seen) (ht : t ≠ "") : isDupTitle seen t = true := by
  simp only [isDupTitle, List.any_eq_true]
  exact ⟨"", hmem, by simp [ht, jsIncludes_empty_sub]⟩

theorem mem_addTitle (seen : List String) (t u : String) (h : u ∈ seen) :
    u ∈ addTitle seen t := by
  unfold addTitle
  by_cases hc : t ∈ seen
  · rw [if_pos hc]; exact h
  · rw [if_neg hc]; exact List.mem_append_left _ h

theorem mem_addTitle_self (seen : List String) (t : String) : t ∈ addTitle seen t := by
  unfold addTitle
  by_cases hc : t ∈ seen
  · rw [if_pos hc]; exact hc
  · rw [if_neg hc]; simp

/-- Once the empty normalized title has been processed, every later record
with a non-empty normalized title is dropped and every record with an empty
normalized title is kept. -/
theorem dedupAux_after_empty (l : List Paper) :
    ∀ seen, "" ∈ seen →
      dedupAux seen l = l.filter (fun p => normalizeTitle p.title == "") := by
  induction l with
  | nil => intro seen _; rfl
  | cons p rest ih =>
    intro seen hmem
    by_cases h : normalizeTitle p.title = ""
    · have h1 : dedupAux seen (p :: rest) = p :: dedupAux (addTitle seen "") rest := by
        simp [dedupAux, h, isDupTitle_empty]
      have h2 : (p :: rest).filter (fun q => normalizeTitle q.title == "")
          = p :: rest.filter (fun q => normalizeTitle q.title == "") := by
        simp [List.filter_cons, h]
      rw [h1, h2, ih (addTitle seen "") (mem_addTitle _ _ _ hmem)]
    · have h1 : dedupAux seen (p :: rest) = dedupAux seen rest := by
        simp [dedupAux, isDupTitle_of_empty_mem seen _ hmem h]
      have h2 : (p :: rest).filter (fun q => normalizeTitle q.title == "")
          = rest.filter (fun q => normalizeTitle q.title == "") := by
        simp [List.filter_cons, h]
      rw [h1, h2, ih seen hmem]

/-- Records whose normalized title is empty always survive the dedup loop. -/
theorem dedupAux_keeps_empty (l : List Paper) :
    ∀ seen, (dedupAux seen l).filter (fun p => normalizeTitle p.title == "")
      = l.filter (fun p => normalizeTitle p.title == "") := by
  induction l with
  | nil => intro seen; rfl
  | cons p rest ih =>
    intro seen
    by_cases h : isDupTitle seen (normalizeTitle p.title)
    · have hne : ¬ normalizeTitle p.title = "" := by
        intro he
        rw [he, isDupTitle_empty] at h
        exact absurd h (by simp)
      have h1 : dedupAux seen (p :: rest) = dedupAux seen rest := by
        simp [dedupAux, h]
      rw [h1, ih seen, List.filter_cons]
      simp [hne]
    · have h1 : dedupAux seen (p :: rest)
          = p :: dedupAux (addTitle seen (normalizeTitle p.title)) rest := by
        simp [dedupAux, h]
      rw [h1, List.filter_cons, List.filter_cons]
      by_cases he : normalizeTitle p.title = "" <;> simp [he, ih]

/-- The dedup loop distributes over append, threading the processed-title set. -/
theorem dedupAux_append (l₁ l₂ : List Paper) :
    ∀ seen, dedupAux seen (l₁ ++ l₂)
      = dedupAux seen l₁ ++ dedupAux (seenAfter seen l₁) l₂ := by
  induction l₁ with
  | nil => intro seen; rfl
  | cons p rest ih =>
    intro seen
    by_cases h : isDupTitle seen (normalizeTitle p.title)
    · have h1 : dedupAux seen (p :: rest ++ l₂) = dedupAux seen (rest ++ l₂) := by
        simp [dedupAux, h]
      have h2 : dedupAux seen (p :: rest) = dedupAux seen rest := by
        simp [dedupAux, h]
      have h3 : seenAfter seen (p :: rest) = seenAfter seen rest := by
        simp [seenAfter, h]
      rw [h1, h2, h3, ih seen]
    · have h1 : dedupAux seen (p :: rest ++ l₂)
          = p :: dedupAux (addTitle seen (normalizeTitle p.title)) (rest ++ l₂) := by
        simp [dedupAux, h]
      have h2 : dedupAux seen (p :: rest)
          = p :: dedupAux (addTitle seen (normalizeTitle p.title)) rest := by
        simp [dedupAux, h]
      have h3 : seenAfter seen (p :: rest)
          = seenAfter (addTitle seen (normalizeTitle p.title)) rest := by
        simp [seenAfter, h]
      rw [h1, h2, h3, ih (addTitle seen (normalizeTitle p.title)), List.cons_append]

/-! ### Grouping lemmas for balanceResultSources -/

theorem addToGroups_fst (k : String) (p : Paper) (gs : List (String × List Paper)) :
    (addToGroups k p gs).map Prod.fst
      = if k ∈ gs.map Prod.fst then gs.map Prod.fst else gs.map Prod.fst ++ [k] := by
  induction gs with
  | nil => simp [addToGroups]
  | cons g rest ih =>
    by_cases h : g.1 = k
    · simp [addToGroups, h]
    · have hne : ¬ k = g.1 := fun he => h he.symm
      by_cases hm : k ∈ rest.map Prod.fst
      · simp [addToGroups, h, ih, hm, hne]
      · simp [addToGroups, h, ih, hm, hne]

theorem addToGroups_members (k : String) (p : Paper) (gs : List (String × List Paper))
    (hg : ∀ g ∈ gs, ∀ q ∈ g.2, sourceKey q = g.1) (hp : sourceKey p = k) :
    ∀ g ∈ addToGroups k p gs, ∀ q ∈ g.2, sourceKey q = g.1 := by
  induction gs with
  | nil =>
    intro g hgmem q hq
    simp only [addToGroups, List.mem_singleton] at hgmem
    subst hgmem
    simp only [List.mem_singleton] at hq
    subst hq
    exact hp
  | cons g₀ rest ih =>
    intro g hgmem q hq
    by_cases h : g₀.1 = k
    · simp only [addToGroups, h, if_pos, List.mem_cons] at hgmem
      rcases hgmem with he | hmem
      · subst he
        simp only [List.mem_append, List.mem_singleton] at hq
        rcases hq with hq | hq
        · have hk := hg g₀ (by simp) q hq
          show sourceKey q = k
          rw [hk]; exact h
        · subst hq
          exact hp
      · exact hg g (by simp [hmem]) q hq
    · simp only [addToGroups, h, if_neg, not_false_iff, List.mem_cons] at hgmem
      rcases hgmem with he | hmem
      · subst he; exact hg g (by simp) q hq
      · exact ih (fun g' hg' => hg g' (by simp [hg'])) g hmem q hq

theorem addToGroups_nodup (k : String) (p : Paper) (gs : List (String × List Paper))
    (h : (gs.map Prod.fst).Nodup) : ((addToGroups k p gs).map Prod.fst).Nodup := by
  rw [addToGroups_fst]
  by_cases hm : k ∈ gs.map Prod.fst
  · simpa [hm] using h
  · simp [hm, List.nodup_append, h]

theorem groupBySource_wf (papers : List Paper) :
    ((groupBySource papers).map Prod.fst).Nodup
    ∧ ∀ g ∈ groupBySource papers, ∀ q ∈ g.2, sourceKey q = g.1 := by
  suffices h : ∀ (l : List Paper) (gs : List (String × List Paper)),
      (gs.map Prod.fst).Nodup → (∀ g ∈ gs, ∀ q ∈ g.2, sourceKey q = g.1) →
      ((l.foldl (fun acc p => addToGroups (sourceKey p) p acc) gs).map Prod.fst).Nodup
      ∧ ∀ g ∈ l.foldl (fun acc p => addToGroups (sourceKey p) p acc) gs,
          ∀ q ∈ g.2, sourceKey q = g.1 by
    exact h papers [] (by simp) (by simp)
  intro l
  induction l with
  | nil => intro gs h1 h2; exact ⟨h1, h2⟩
  | cons p rest ih =>
    intro gs h1 h2
    exact ih (addToGroups (sourceKey p) p gs)
      (addToGroups_nodup _ _ _ h1) (addToGroups_members _ _ _ h2 rfl)

theorem countP_sourceKey_zero (l : List Paper) (k s : String)
    (hk : ∀ p ∈ l, sourceKey p = k) (hne : k ≠ s) :
    l.countP (fun p => sourceKey p == s) = 0 := by
  rw [List.countP_eq_zero]
  intro a ha
  simp [hk a ha, hne]

theorem flatten_take_count_zero (gs : List (String × List Paper)) (per : Nat) (s : String)
    (hmem : ∀ g ∈ gs, ∀ q ∈ g.2, sourceKey q = g.1) (hs : s ∉ gs.map Prod.fst) :
    ((gs.map (fun g => g.2.take per)).flatten).countP (fun p => sourceKey p == s) = 0 := by
  induction gs with
  | nil => rfl
  | cons g rest ih =>
    simp only [List.map_cons, List.flatten_cons, List.countP_append]
    have hz : (g.2.take per).countP (fun p => sourceKey p == s) = 0 := by
      apply countP_sourceKey_zero _ g.1
      · intro p hp; exact hmem g (by simp) p (List.take_subset _ _ hp)
      · intro he; exact hs (by simp [← he])
    rw [hz, ih (fun g' hg' => hmem g' (by simp [hg'])) (fun hmem2 => hs (by simp [hmem2]))]

theorem flatten_take_count_le (gs : List (String × List Paper)) (per : Nat) (s : String)
    (hnd : (gs.map Prod.fst).Nodup) (hmem : ∀ g ∈ gs, ∀ q ∈ g.2, sourceKey q = g.1) :
    ((gs.map (fun g => g.2.take per)).flatten).countP (fun p => sourceKey p == s) ≤ per := by
  induction gs with
  | nil => simp
  | cons g rest ih =>
    simp only [List.map_cons, List.flatten_cons, List.countP_append]
    have hnd' : (rest.map Prod.fst).Nodup := (List.nodup_cons.mp hnd).2
    have hmem' : ∀ g' ∈ rest, ∀ q ∈ g'.2, sourceKey q = g'.1 :=
      fun g' hg' => hmem g' (by simp [hg'])
    by_cases h : g.1 = s
    · have h1 : (g.2.take per).countP (fun p => sourceKey p == s) ≤ per := by
        calc (g.2.take per).countP (fun p => sourceKey p == s)
            ≤ (g.2.take per).length := List.countP_le_length _
          _ ≤ per := by simp [List.length_take]
      have h2 : ((rest.map (fun g => g.2.take per)).flatten).countP
          (fun p => sourceKey p == s) = 0 := by
        apply flatten_take_count_zero _ _ _ hmem'
        rw [← h]
        exact (List.nodup_cons.mp hnd).1
      omega
    · have h1 : (g.2.take per).countP (fun p => sourceKey p == s) = 0 :=
        countP_sourceKey_zero _ g.1 s
          (fun p hp => hmem g (by simp) p (List.take_subset _ _ hp)) h
      have h2 := ih hnd' hmem'
      omega

theorem foldl_single_source (l : List Paper) (k : String) :
    ∀ acc, (∀ p ∈ l, sourceKey p = k) →
      l.foldl (fun gs p => addToGroups (sourceKey p) p gs) [(k, acc)] = [(k, acc ++ l)] := by
  induction l with
  | nil => intro acc _; simp
  | cons p rest ih =>
    intro acc h
    have hp : sourceKey p = k := h p (by simp)
    simp only [List.foldl_cons, hp]
    have hstep : addToGroups k p [(k, acc)] = [(k, acc ++ [p])] := by
      simp [addToGroups]
    rw [hstep, ih (acc ++ [p]) (fun q hq => h q (by simp [hq]))]
    simp

theorem groupBySource_single (papers : List Paper) (k : String)
    (h : ∀ p ∈ papers, sourceKey p = k) :
    papers = [] ∨ groupBySource papers = [(k, papers)] := by
  cases papers with
  | nil => left; rfl
  | cons p rest =>
    right
    unfold groupBySource
    simp only [List.foldl_cons]
    have hp : sourceKey p = k := h p (by simp)
    rw [hp]
    have hstep : addToGroups k p ([] : List (String × List Paper)) = [(k, [p])] := rfl
    rw [hstep, foldl_single_source rest k [p] (fun q hq => h q (by simp [hq]))]
    simp

/-! ### Streaming lemmas -/

theorem streamLoop_spec (stage : String) (msgs : List SMsg) :
    ∀ acc, streamLoop stage acc msgs
      = (((increments msgs).filter (fun c => !(c == ""))).map (SEvent.token stage),
         acc ++ concatAll (increments msgs)) := by
  induction msgs with
  | nil => intro acc; simp [streamLoop, increments, concatAll]
  | cons m rest ih =>
    intro acc
    cases m with
    | doneMark => simp [streamLoop, increments, ih]
    | malformed => simp [streamLoop, increments, ih]
    | delta c =>
      cases c with
      | none => simp [streamLoop, increments, ih]
      | some s =>
        by_cases hs : s = ""
        · subst hs
          simp [streamLoop, increments, ih, concatAll]
        · simp [streamLoop, hs, increments, ih, concatAll, String.append_assoc]

theorem concatAll_filter_ne (l : List String) :
    concatAll (l.filter (fun c => !(c == ""))) = concatAll l := by
  induction l with
  | nil => rfl
  | cons s rest ih =>
    by_cases hs : s = ""
    · subst hs; simp [concatAll, ih]
    · simp [concatAll, hs, ih]

/-! ### processQuestion lemma -/

theorem noPapersAnswer_ne_empty (q w : String) : noPapersAnswer q w ≠ "" := by
  intro h
  have h2 := congrArg String.length h
  simp [noPapersAnswer, String.length_append] at h2
  exact absurd h2.2 (by decide)

/-! ### Claim theorems -/

/-- Claim C1 (corrected): every paper returned by `filterRelevantPapers` is
an element of the input list — no records are invented — for every question,
paper list, `maxPapers` and provider reply. (The claimed length bound
`≤ maxPapers` does not hold; see the counterexample.) -/
theorem c1_filter_output_subset_of_input :
    ∀ (question : String) (papers : List Paper) (maxPapers : Nat)
      (upstream : FilterUpstream) (p : Paper),
      p ∈ (filterRelevantPapers question papers maxPapers upstream).1 → p ∈ papers := by
  intro q papers mp u p hp
  unfold filterRelevantPapers at hp
  by_cases hlen : papers.length ≤ mp
  · rw [if_pos hlen] at hp; exact hp
  · rw [if_neg hlen] at hp
    cases u with
    | failure => exact hp
    | notArray => exact hp
    | idArray ids =>
      have hcases : p ∈ papers ∨ p ∈ ids.filterMap (indexPaper papers) := by
        by_cases hsel : (ids.filterMap (indexPaper papers)).isEmpty
        · left; simpa [hsel] using hp
        · right; simpa [hsel] using hp
      rcases hcases with h | h
      · exact h
      · rw [List.mem_filterMap] at h
        obtain ⟨i, _, hi⟩ := h
        unfold indexPaper at hi
        by_cases hneg : i < 0
        · rw [if_pos hneg] at hi; cases hi
        · rw [if_neg hneg] at hi
          exact List.get?_mem hi

/-- Claim C1, witness for the subset theorem at a concrete input. -/
theorem c1_filter_output_subset_of_input_witness :
    paperA ∈ (filterRelevantPapers "q" [paperA, paperB] 1 (FilterUpstream.idArray [0, 1])).1
    ∧ paperA ∈ [paperA, paperB] := by
  have hmem : paperA ∈ (filterRelevantPapers "q" [paperA, paperB] 1
      (FilterUpstream.idArray [0, 1])).1 := by decide
  exact ⟨hmem, c1_filter_output_subset_of_input "q" [paperA, paperB] 1
    (FilterUpstream.idArray [0, 1]) paperA hmem⟩

/-- Claim C1, counterexample to the claimed length bound: with two papers,
`maxPapers = 1` and the provider selecting both indices, the filter returns
both papers, so the output length exceeds `maxPapers`. -/
theorem c1_filter_length_counterexample :
    (filterRelevantPapers "q" [paperA, paperB] 1 (FilterUpstream.idArray [0, 1])).1.length = 2
    ∧ ¬ ((filterRelevantPapers "q" [paperA, paperB] 1
          (FilterUpstream.idArray [0, 1])).1.length ≤ 1) := by
  exact ⟨by decide, by decide⟩

/-- Claim C2: deduplication is idempotent on every paper list, and of the
two records titled "Deep Learning for X" and "deep learning for x!" exactly
one (the first) survives deduplication. -/
theorem c2_dedup_idempotent_and_title_example :
    (∀ X : List Paper, removeDuplicatePapers (removeDuplicatePapers X) = removeDuplicatePapers X)
    ∧ removeDuplicatePapers [dlPaper1, dlPaper2] = [dlPaper1]
    ∧ (removeDuplicatePapers [dlPaper1, dlPaper2]).length = 1 := by
  exact ⟨fun X => dedupAux_idem X [], by decide, by decide⟩

/-- Claim C3: for every raw Semantic Scholar record and every raw CORE
record, whatever subset of fields is absent, every property of the
normalized record is defined; the two adapters produce structurally
identical records (same shape, same defined-property vector); and the
title/abstract/year fields resolve to the raw value or to the documented
sentinel. -/
theorem c3_adapter_normalization_total :
    ∀ (p : RawSSPaper) (q : RawCOREPaper),
      definedVector (normalizeSemanticScholar p)
        = [true, true, true, true, true, true, true, true]
      ∧ definedVector (normalizeCORE q)
        = [true, true, true, true, true, true, true, true]
      ∧ definedVector (normalizeSemanticScholar p) = definedVector (normalizeCORE q)
      ∧ ((normalizeSemanticScholar p).title = p.title
          ∨ (normalizeSemanticScholar p).title = some "No title available")
      ∧ ((normalizeSemanticScholar p).year = some "Unknown"
          ∨ ∃ yv, p.year = some yv
              ∧ (normalizeSemanticScholar p).year = some (yearToString yv))
      ∧ ((normalizeCORE q).title = q.title ∨ (normalizeCORE q).title = some "No title available")
      ∧ ((normalizeCORE q).abstract = q.abstract ∨ (normalizeCORE q).abstract = q.description
          ∨ (normalizeCORE q).abstract = some "No abstract available") := by
  intro p q
  refine ⟨rfl, rfl, rfl, ?_, ?_, ?_, ?_⟩
  · cases hp : p.title with
    | none => right; simp [normalizeSemanticScholar, jsOrStr, hp]
    | some s =>
      by_cases hs : s = ""
      · right; simp [normalizeSemanticScholar, jsOrStr, hp, hs]
      · left; simp [normalizeSemanticScholar, jsOrStr, hp, hs]
  · cases hy : p.year with
    | none => left; simp [normalizeSemanticScholar, normYear, hy]
    | some yv =>
      by_cases hg : (yearTruthy (some yv) && yearNotNA yv) = true
      · right; exact ⟨yv, rfl, by simp [normalizeSemanticScholar, normYear, hy, hg]⟩
      · left; simp [normalizeSemanticScholar, normYear, hy, hg]
  · cases hq : q.title with
    | none => right; simp [normalizeCORE, jsOrStr, hq]
    | some s =>
      by_cases hs : s = ""
      · right; simp [normalizeCORE, jsOrStr, hq, hs]
      · left; simp [normalizeCORE, jsOrStr, hq, hs]
  · cases ha : q.abstract with
    | none =>
      cases hd : q.description with
      | none => right; right; simp [normalizeCORE, jsChainStr, ha, hd]
      | some s =>
        by_cases hs : s = ""
        · right; right; simp [normalizeCORE, jsChainStr, ha, hd, hs]
        · right; left; simp [normalizeCORE, jsChainStr, ha, hd, hs]
    | some s =>
      by_cases hs : s = ""
      · cases hd : q.description with
        | none => right; right; simp [normalizeCORE, jsChainStr, ha, hd, hs]
        | some s' =>
          by_cases hs' : s' = ""
          · right; right; simp [normalizeCORE, jsChainStr, ha, hd, hs, hs']
          · right; left; simp [normalizeCORE, jsChainStr, ha, hd, hs, hs']
      · left; simp [normalizeCORE, jsChainStr, ha, hs]

/-- Claim C4 (corrected/amended): in `generateAnswerWithCitations` the
citation key is the first author's surname and the year enclosed in square
brackets, with surname `"Unknown"` when authors is neither a string nor a
non-empty array and year `"n.d."` when the year field is falsy; in the
streaming route's `citationsWithKeys` the key is the unbracketed
surname-year with an empty-string year fallback; both constructions are
deterministic. -/
theorem c4_citation_key_amended :
    (∀ c : CitRecord, citationKeyGen c
        = "[" ++ surnameSpecGen c.authors ++ yearSpecGen c.year ++ "]")
    ∧ (∀ c : CitRecord, citationKeyStream c
        = surnameSpecStream c.authors ++ (if jsTruthyOpt c.year then c.year.getD "" else ""))
    ∧ surnameSpecGen AuthorsVal.other = "Unknown"
    ∧ surnameSpecGen (AuthorsVal.arr []) = "Unknown"
    ∧ yearSpecGen none = "n.d."
    ∧ yearSpecGen (some "") = "n.d."
    ∧ (∀ citations : List CitRecord, buildKeysGen citations = buildKeysGen citations) := by
  refine ⟨?_, ?_, rfl, rfl, rfl, rfl, fun _ => rfl⟩
  · intro c
    obtain ⟨a, y⟩ := c
    cases a with
    | str s => rfl
    | arr l =>
      cases l with
      | nil => rfl
      | cons hd tl => cases hd <;> rfl
    | other => rfl
  · intro c
    obtain ⟨a, y⟩ := c
    cases a with
    | str s => rfl
    | arr l =>
      cases l with
      | nil => rfl
      | cons hd tl => cases hd <;> rfl
    | other => rfl

/-- Claim C4, counterexample to the claim as stated: for a citation with
authors "John Smith" and year "2020" the computed key is "[Smith2020]",
which is not the bare concatenation of the surname and the year. -/
theorem c4_citation_key_counterexample :
    citationKeyGen ⟨AuthorsVal.str "John Smith", some "2020"⟩ = "[Smith2020]"
    ∧ citationKeyGen ⟨AuthorsVal.str "John Smith", some "2020"⟩ ≠ "Smith" ++ "2020" := by
  exact ⟨by decide, by decide⟩

/-- Claim C5: when the evaluator decides `canAnswer = false` and the paper
search returns no papers, `processQuestion` returns a terminal ok result
with the explanatory (non-empty) answer template and an empty citations
list, without entering `generateAnswerWithCitations` (the flag is `false`)
and without producing an error; the streaming route likewise emits exactly
the `no_papers_found` stage update followed by the terminal `complete`
event with zero citations. -/
theorem c5_no_papers_terminal :
    ∀ (question : String) (d : Decision) (papers : List Paper)
      (genResult : Except String GenOut) (randomIds : Nat → String)
      (rest : List RouteEvent),
      d.canAnswer = false → papers = [] →
      processQuestion question (.ok d) papers genResult randomIds
        = (.ok { answer := noPapersAnswer question d.queryWord
               , queryWord := some d.queryWord
               , citations := []
               , note := none
               , paperAnalysis := none
               , processSteps := ["Evaluated question scope", "Determined research needed",
                   "Retrieved 0 papers", "Generated response"] }, false)
      ∧ noPapersAnswer question d.queryWord ≠ ""
      ∧ streamAfterSearch question d papers rest
          = [ RouteEvent.stageUpdate "no_papers_found"
                ("未找到与搜索词\"" ++ d.queryWord ++ "\"相关的论文。")
            , RouteEvent.completeEv (noPapersAnswer question d.queryWord) [] ] := by
  intro question d papers gen rids rest hcan hemp
  subst hemp
  refine ⟨?_, noPapersAnswer_ne_empty question d.queryWord, ?_⟩
  · simp [processQuestion, hcan]
  · simp [streamAfterSearch]

/-- Claim C5, witness at a concrete input. -/
theorem c5_no_papers_terminal_witness :
    (Decision.canAnswer ⟨false, "", "xyzzy"⟩ = false ∧ ([] : List Paper) = [])
    ∧ processQuestion "q" (.ok ⟨false, "", "xyzzy"⟩) [] (.error "unused") (fun _ => "r")
        = (.ok { answer := noPapersAnswer "q" "xyzzy"
               , queryWord := some "xyzzy"
               , citations := []
               , note := none
               , paperAnalysis := none
               , processSteps := ["Evaluated question scope", "Determined research needed",
                   "Retrieved 0 papers", "Generated response"] }, false) :=
  ⟨⟨rfl, rfl⟩, (c5_no_papers_terminal "q" ⟨false, "", "xyzzy"⟩ [] (.error "unused")
    (fun _ => "r") [] rfl rfl).1⟩

/-- Claim C6: whenever the paper list is at most `maxPapers` long, the
relevance filter returns the input unchanged and does not call the
text-generation provider, for every provider reply. -/
theorem c6_filter_fast_path :
    ∀ (question : String) (papers : List Paper) (maxPapers : Nat) (upstream : FilterUpstream),
      papers.length ≤ maxPapers →
      filterRelevantPapers question papers maxPapers upstream = (papers, false) := by
  intro q papers mp u h
  unfold filterRelevantPapers
  rw [if_pos h]

/-- Claim C6, witness at a concrete input. -/
theorem c6_filter_fast_path_witness :
    ([paperA, paperB] : List Paper).length ≤ 5
    ∧ filterRelevantPapers "q" [paperA, paperB] 5 FilterUpstream.failure
        = ([paperA, paperB], false) :=
  ⟨by decide, c6_filter_fast_path "q" [paperA, paperB] 5 FilterUpstream.failure (by decide)⟩

/-- Claim C7: the first balancing pass contributes at most
`ceil(targetCount / numSources)` papers from each source, and in the
90/10-across-two-sources scenario with `targetCount = 20` the first-pass
output contains exactly `10 = min(10, ceil(20/2))` papers from the minority
source (and the first pass is the whole balanced output there). -/
theorem c7_source_balance_first_pass :
    (∀ (papers : List Paper) (targetTotal : Nat) (s : String),
      (firstPassBalanced papers targetTotal).countP (fun p => sourceKey p == s)
        ≤ ceilDiv targetTotal (groupBySource papers).length)
    ∧ (firstPassBalanced scenario100 20).countP (fun p => sourceKey p == "CORE") = 10
    ∧ balanceResultSources scenario100 20 = firstPassBalanced scenario100 20
    ∧ min 10 (ceilDiv 20 2) = 10 := by
  refine ⟨?_, by decide, by decide, by decide⟩
  intro papers targetTotal s
  have hwf := groupBySource_wf papers
  simp only [firstPassBalanced]
  exact flatten_take_count_le (groupBySource papers) _ s hwf.1 hwf.2

/-- Claim C8 (corrected/amended): every non-empty text increment is
forwarded as its own `token` event in arrival order (empty increments are
dropped), and the final `chunk_complete` event — the last event of the
stage — carries the concatenation of the forwarded increments, which equals
the concatenation of all increments. -/
theorem c8_streaming_amended :
    ∀ (stage : String) (msgs : List SMsg),
      streamOpenAIResponse stage msgs
        = (((increments msgs).filter (fun c => !(c == ""))).map (SEvent.token stage)
            ++ [SEvent.chunkComplete stage (concatAll (increments msgs))],
           concatAll (increments msgs))
      ∧ concatAll ((increments msgs).filter (fun c => !(c == "")))
          = concatAll (increments msgs) := by
  intro stage msgs
  constructor
  · unfold streamOpenAIResponse
    rw [streamLoop_spec stage msgs ""]
    simp
  · exact concatAll_filter_ne _

/-- Claim C8, counterexample to the claim as stated: a stream with
increments "a", "", "b" carries three increments but only two `token`
events are forwarded, so not every increment becomes its own event. -/
theorem c8_streaming_counterexample :
    (increments c8msgs).length = 3
    ∧ ((streamOpenAIResponse "analysis" c8msgs).1.countP isTokenEv) = 2
    ∧ (2 : Nat) ≠ 3 := by
  exact ⟨by decide, by decide, by decide⟩

/-- Claim C9: if a record whose normalized title is empty occurs in the
input, every later record with a non-empty normalized title is classified
as a duplicate and removed, while records whose own normalized title is
empty are never removed. -/
theorem c9_empty_title_absorbs :
    (∀ (pre post : List Paper) (e : Paper), normalizeTitle e.title = "" →
      removeDuplicatePapers (pre ++ e :: post)
        = removeDuplicatePapers pre
            ++ e :: post.filter (fun p => normalizeTitle p.title == ""))
    ∧ (∀ l : List Paper,
        (removeDuplicatePapers l).filter (fun p => normalizeTitle p.title == "")
          = l.filter (fun p => normalizeTitle p.title == "")) := by
  constructor
  · intro pre post e he
    unfold removeDuplicatePapers
    rw [dedupAux_append]
    congr 1
    have h1 : dedupAux (seenAfter [] pre) (e :: post)
        = e :: dedupAux (addTitle (seenAfter [] pre) "") post := by
      simp [dedupAux, he, isDupTitle_empty]
    rw [h1, dedupAux_after_empty post (addTitle (seenAfter [] pre) "")
      (mem_addTitle_self _ "")]
  · intro l
    exact dedupAux_keeps_empty l []

/-- Claim C9, witness at a concrete input. -/
theorem c9_empty_title_absorbs_witness :
    normalizeTitle bangPaper.title = ""
    ∧ removeDuplicatePapers [dlPaper1, bangPaper, dlPaper2, bangPaper2]
        = removeDuplicatePapers [dlPaper1]
            ++ bangPaper :: [dlPaper2, bangPaper2].filter
                (fun p => normalizeTitle p.title == "") :=
  ⟨by decide, c9_empty_title_absorbs.1 [dlPaper1] [dlPaper2, bangPaper2] bangPaper (by decide)⟩

/-- Claim C10: when every record carries the same source key (at most one
distinct source), `balanceResultSources` returns the input unchanged with
no truncation, for every `targetTotal`; with two distinct sources the
output can differ from (and be shorter than) the input. -/
theorem c10_single_source_identity :
    (∀ (papers : List Paper) (targetTotal : Nat) (k : String),
      (∀ p ∈ papers, sourceKey p = k) →
      balanceResultSources papers targetTotal = papers)
    ∧ balanceResultSources [mkPaper "arXiv" 0, mkPaper "arXiv" 1, mkPaper "CORE" 2] 1
        = [mkPaper "arXiv" 0, mkPaper "CORE" 2]
    ∧ ([mkPaper "arXiv" 0, mkPaper "CORE" 2] : List Paper)
        ≠ [mkPaper "arXiv" 0, mkPaper "arXiv" 1, mkPaper "CORE" 2] := by
  refine ⟨?_, by decide, by decide⟩
  intro papers targetTotal k h
  rcases groupBySource_single papers k h with h0 | hgs
  · subst h0; rfl
  · have hemp : papers.isEmpty = false := by
      cases papers with
      | nil => simp [groupBySource] at hgs
      | cons _ _ => rfl
    simp [balanceResultSources, hemp, hgs]

/-- Claim C10, witness at a concrete input. -/
theorem c10_single_source_identity_witness :
    (∀ p ∈ [mkPaper "arXiv" 0, mkPaper "arXiv" 1], sourceKey p = "arXiv")
    ∧ balanceResultSources [mkPaper "arXiv" 0, mkPaper "arXiv" 1] 1
        = [mkPaper "arXiv" 0, mkPaper "arXiv" 1] :=
  ⟨by decide, c10_single_source_identity.1 [mkPaper "arXiv" 0, mkPaper "arXiv" 1] 1 "arXiv"
    (by decide)⟩

end AISearch
